import Mathlib

/-!
Verification development for the MinA meeting-notes agent.

The Python sources are shallowly embedded:
* strings are `String` / `List Char` (Python text is modelled at ASCII level,
  which covers every value the program compares against);
* floats are `ℚ` (the program only adds, subtracts, divides and compares);
* timestamps are `ℤ` ticks, with `interval '30 days'` modelled as `+ days`;
* the PostgreSQL tables are in-memory association lists inside a `DB` record,
  and each SQL statement of the source becomes an explicit list operation;
* external collaborators (media download, Whisper, the LLM, Twilio, the
  signature check) are passed in as explicit result values, so that the
  control flow of the Python code around them is preserved exactly.
-/

namespace MinA

/-! ### Python string primitives (as used by utils.py / app.py) -/

/-- Characters removed by Python `str.strip()`. -/
def pyIsSpace (c : Char) : Bool :=
  c = ' ' || c = '\t' || c = '\n' || c = '\r' || c = '\x0b' || c = '\x0c'

/-- Python `str.strip()`: drop leading and trailing whitespace. -/
def pyStrip (l : List Char) : List Char :=
  ((l.dropWhile pyIsSpace).reverse.dropWhile pyIsSpace).reverse

/-- Python `str.replace(c, "")`: remove every occurrence of one character. -/
def removeChar (c : Char) (l : List Char) : List Char :=
  l.filter (fun x => x ≠ c)

/-- Python `str.isdigit()` (ASCII): nonempty and all digits. -/
def pyIsDigits (l : List Char) : Bool :=
  !l.isEmpty && l.all Char.isDigit

/-- Python `re.sub(r"\D", "", s)` (ASCII): keep only digits. -/
def keepDigits (l : List Char) : List Char :=
  l.filter Char.isDigit

def whatsappTag : List Char := "whatsapp:".toList

/-- The digit-selection cascade of utils.normalize_phone_for_db, applied to
the stripped input with spaces and dashes removed. -/
def normDigits (p : List Char) : List Char :=
  if ("+".toList).isPrefixOf p then p.drop 1
  else if ("00".toList).isPrefixOf p && pyIsDigits (p.drop 2) then p.drop 2
  else if pyIsDigits p then p
  else keepDigits p

/-- utils.normalize_phone_for_db: normalize any phone into
`whatsapp:+<digits>` form, returning the input unchanged when it is empty and
any string already carrying the `whatsapp:` tag unchanged after stripping. -/
def normalize_phone_for_db (raw : List Char) : List Char :=
  if raw.isEmpty then raw
  else
    let p := pyStrip raw
    if whatsappTag.isPrefixOf p then p
    else "whatsapp:+".toList ++ normDigits (removeChar '-' (removeChar ' ' p))

/-- utils.normalize_phone_for_db lifted to `String`. -/
def normalizePhoneStr (s : String) : String :=
  ⟨normalize_phone_for_db s.data⟩

/-- Python `str.lower()` on one ASCII character. -/
def pyLowerChar (c : Char) : Char :=
  if 65 ≤ c.toNat ∧ c.toNat ≤ 90 then Char.ofNat (c.toNat + 32) else c

/-- Python `str.lower()` (ASCII). -/
def pyLower (s : String) : String :=
  ⟨s.data.map pyLowerChar⟩

/-- Python 3 `round` rounds halves to the nearest even integer. -/
def roundHalfEven (x : ℚ) : ℤ :=
  let n := ⌊x⌋
  let f := x - (n : ℚ)
  if f < 1/2 then n
  else if 1/2 < f then n + 1
  else if n % 2 = 0 then n else n + 1

/-- Python `round(x, 2)`. -/
def pyRound2 (x : ℚ) : ℚ :=
  ((roundHalfEven (x * 100) : ℤ) : ℚ) / 100

/-! ### Duration helpers (app.py)

`mutagen` parsing is embedded as an `Option ℚ` argument: `some l` when the
parse succeeded and exposed a length `l`, `none` when parsing raised or the
`length` attribute was missing.  The file-size fallback of
`get_audio_duration_seconds` likewise receives the size as `Option ℕ`. -/

/-- app.compute_audio_duration_seconds: the duration helper called by the
Twilio webhook.  Python returns `0.0` when the parse failed *or* the length
attribute is falsy (absent or `0.0`), else `round(length, 2)`. -/
def compute_audio_duration_seconds (mutagenLength : Option ℚ) : ℚ :=
  match mutagenLength with
  | none => 0
  | some l => if l = 0 then 0 else pyRound2 l

/-- app.get_audio_duration_seconds: mutagen length if present (even `0.0`),
else `size * 8 / 16000` from the file size, else the worst-case `60.0`. -/
def get_audio_duration_seconds (mutagenLength : Option ℚ) (sizeBytes : Option ℕ) : ℚ :=
  match mutagenLength with
  | some l => l
  | none =>
    match sizeBytes with
    | some n => (n * 8 : ℚ) / 16000
    | none => 60

/-! ### Data model (db.py / init_db)

One row per table of init_db.  Nullable columns are `Option`s.  Timestamps
irrelevant to the claims (`created_at`, `updated_at`) are omitted. -/

structure UserRow where
  credits : ℚ
  subActive : Bool
  subExpiry : Option ℤ
deriving DecidableEq

structure MeetingRow where
  phone : String
  audioFile : Option String
  transcript : Option String
  summary : Option String
  messageSid : Option String
deriving DecidableEq

structure PaymentRow where
  phone : Option String
  payId : String
  amount : Option ℤ
  status : Option String
deriving DecidableEq

structure DB where
  users : List (String × UserRow)
  notes : List MeetingRow
  payments : List PaymentRow
deriving DecidableEq

/-- The phone-keyed defaults of the users table: `credits_remaining` 30.0,
`subscription_active` FALSE, `subscription_expiry` NULL. -/
def defaultUser : UserRow := ⟨30, false, none⟩

/-- `SELECT ... FROM users WHERE phone = k` (first matching row). -/
def lookupUser : List (String × UserRow) → String → Option UserRow
  | [], _ => none
  | e :: t, k => if e.1 = k then some e.2 else lookupUser t k

/-- `UPDATE users SET ... WHERE phone = k` (rewrites every matching row). -/
def updateUser : List (String × UserRow) → String → UserRow → List (String × UserRow)
  | [], _, _ => []
  | e :: t, k, u => (if e.1 = k then (k, u) else e) :: updateUser t k u

/-- Update-or-insert, as the source does with an existence check or
`ON CONFLICT (phone) DO UPDATE`. -/
def writeUser (l : List (String × UserRow)) (k : String) (u : UserRow) :
    List (String × UserRow) :=
  if (lookupUser l k).isSome then updateUser l k u else l ++ [(k, u)]

def getUser (db : DB) (k : String) : Option UserRow :=
  lookupUser db.users k

def putUser (db : DB) (k : String) (u : UserRow) : DB :=
  { db with users := writeUser db.users k u }

/-- db.set_subscription_active: `UPDATE users SET subscription_active = TRUE,
subscription_expiry = NOW() + days, credits_remaining =
GREATEST(COALESCE(credits_remaining,0),0) WHERE phone = k`.  A missing user
row is left missing (plain UPDATE, no insert). -/
def activateRows : List (String × UserRow) → String → ℤ → List (String × UserRow)
  | [], _, _ => []
  | e :: t, k, exp =>
    (if e.1 = k then
       (e.1, { e.2 with subActive := true, subExpiry := some exp, credits := max e.2.credits 0 })
     else e) :: activateRows t k exp

def set_subscription_active (db : DB) (phone : String) (days : ℤ) (now : ℤ) : DB :=
  { db with users := activateRows db.users phone (now + days) }

/-- `SELECT ... FROM payments WHERE razorpay_payment_id = k` (first match). -/
def lookupPayment : List PaymentRow → String → Option PaymentRow
  | [], _ => none
  | e :: t, k => if e.payId = k then some e else lookupPayment t k

def findPayment (db : DB) (k : String) : Option PaymentRow :=
  lookupPayment db.payments k

def updatePayment : List PaymentRow → PaymentRow → List PaymentRow
  | [], _ => []
  | e :: t, r => (if e.payId = r.payId then r else e) :: updatePayment t r

/-- db.record_payment: `INSERT ... ON CONFLICT (razorpay_payment_id) DO UPDATE
SET phone, amount, currency, status, updated_at RETURNING id, status`; we
return the updated database together with the RETURNING status, which is the
status just written. -/
def record_payment (db : DB) (phone : Option String) (payId : String)
    (amount : Option ℤ) (status : String) : DB × Option String :=
  let row : PaymentRow := ⟨phone, payId, amount, some status⟩
  if (lookupPayment db.payments payId).isSome then
    ({ db with payments := updatePayment db.payments row }, some status)
  else
    ({ db with payments := db.payments ++ [row] }, some status)

/-! ### Schema facts of db.init_db

init_db creates three tables.  These constants transcribe, column for column
and index for index, what init_db declares. -/

/-- The columns of `meeting_notes` as created by init_db. -/
def meetingNotesColumnsInitDb : List String :=
  ["id", "phone", "audio_file", "transcript", "summary", "created_at"]

/-- The unique keys declared by init_db: `users.phone UNIQUE` in the table
definition, and `CREATE UNIQUE INDEX ... ON payments (razorpay_payment_id)`.
No unique index is created on any `meeting_notes` column. -/
def initDbUniqueIndexes : List (String × String) :=
  [("users", "phone"), ("payments", "razorpay_payment_id")]

/-! ### Reservation engine (app.twilio_webhook) -/

/-- app.normalize_phone_for_db (app.py defines its own, shadowing utils):
`phone.strip().lower().replace(" ", "")`. -/
def appNormalizePhone (s : String) : String :=
  ⟨removeChar ' ' ((pyStrip s.data).map pyLowerChar)⟩

structure InEvent where
  sender : String
  messageSid : Option String
  mediaUrl : Option String
deriving DecidableEq

/-- `dedupe_key = message_sid or sha256(media_url)`; the hash is supplied as
a function parameter `h`, standing for SHA-256 hex on the URL. -/
def dedupeKey (h : String → String) (e : InEvent) : Option String :=
  match e.messageSid with
  | some s => some s
  | none => e.mediaUrl.map h

/-- The dedupe check of the webhook: a plain `SELECT 1 FROM meeting_notes
WHERE message_sid = key LIMIT 1` *read*, before the reservation runs. -/
def dedupeHit (db : DB) (key : Option String) : Bool :=
  match key with
  | none => false
  | some k => db.notes.any (fun n => n.messageSid = some k)

/-- Subscription bypass test: `sub_active and (sub_expiry is None or
sub_expiry > now)`. -/
def subBypass (u : UserRow) (now : ℤ) : Bool :=
  u.subActive && (match u.subExpiry with
                  | none => true
                  | some e => now < e)

/-- The user row the reservation works on: the locked existing row, or the
default row inserted inside the transaction when the user is missing. -/
def effectiveUser (db : DB) (phone : String) : UserRow :=
  (getUser db phone).getD defaultUser

/-- `to_deduct`: 0 under an active unexpired subscription, else the minutes. -/
def toDeductOf (u : UserRow) (minutes : ℚ) (now : ℤ) : ℚ :=
  if subBypass u now then 0 else minutes

inductive ReserveOutcome
  | accepted
  | insufficient
deriving DecidableEq

/-- The reservation transaction of app.twilio_webhook (lines 535-578): lock
the user row (creating it if missing), compute `to_deduct`, roll back with
an insufficient-credits rejection when the balance is short, otherwise
deduct and insert the meeting_notes row carrying the dedupe key, then
commit.  On rejection the rollback also undoes the user creation, so the
original `db` is returned. -/
def reserveTxn (db : DB) (phone : String) (mediaUrl : String) (minutes : ℚ)
    (key : Option String) (now : ℤ) : DB × ReserveOutcome :=
  let u := effectiveUser db phone
  let toDeduct := toDeductOf u minutes now
  if toDeduct > 0 ∧ u.credits < toDeduct then
    (db, .insufficient)
  else
    let u' := if toDeduct > 0 then { u with credits := u.credits - toDeduct } else u
    let db1 := putUser db phone u'
    let db2 := { db1 with notes := db1.notes ++ [⟨phone, some mediaUrl, none, none, key⟩] }
    (db2, .accepted)

/-- Exception points inside the reservation `with get_conn()` block.  On an
exception before the final commit the connection context manager rolls the
whole transaction back: no pending write is published. -/
inductive FailPoint
  | noFail
  | afterLock
  | afterDeduct
  | afterInsert
deriving DecidableEq

/-- The reservation transaction with an explicit exception oracle: the
pending states are built exactly as in `reserveTxn`, but when the oracle
fires before the commit the pending writes are discarded and the original
database is returned (`None` outcome: the handler catches and answers 204). -/
def reserveTxnFail (db : DB) (phone : String) (mediaUrl : String) (minutes : ℚ)
    (key : Option String) (now : ℤ) (fp : FailPoint) : DB × Option ReserveOutcome :=
  if fp = .afterLock then (db, none)
  else
    let u := effectiveUser db phone
    let toDeduct := toDeductOf u minutes now
    if toDeduct > 0 ∧ u.credits < toDeduct then
      (db, some .insufficient)
    else
      let u' := if toDeduct > 0 then { u with credits := u.credits - toDeduct } else u
      let pending1 := putUser db phone u'
      if fp = .afterDeduct then (db, none)
      else
        let pending2 :=
          { pending1 with notes := pending1.notes ++ [⟨phone, some mediaUrl, none, none, key⟩] }
        if fp = .afterInsert then (db, none)
        else (pending2, some .accepted)

inductive WebhookResult
  | duplicate
  | noMedia
  | insufficient
  | accepted
deriving DecidableEq

/-- The webhook steps after the dedupe read: media presence check, duration
computation via `compute_audio_duration_seconds`, `minutes =
round(seconds / 60, 2)`, then the reservation transaction.  `dur` is the
mutagen parse outcome for the downloaded media. -/
def afterDedupe (db : DB) (e : InEvent) (key : Option String) (dur : Option ℚ)
    (now : ℤ) : DB × WebhookResult :=
  match e.mediaUrl with
  | none => (db, .noMedia)
  | some url =>
    ((reserveTxn db (appNormalizePhone e.sender) url
        (pyRound2 (compute_audio_duration_seconds dur / 60)) key now).1,
     match (reserveTxn db (appNormalizePhone e.sender) url
        (pyRound2 (compute_audio_duration_seconds dur / 60)) key now).2 with
     | .insufficient => .insufficient
     | .accepted => .accepted)

/-- One sequential processing of an inbound Twilio event: dedupe read, then
the rest.  (Transcription and the later UPDATE of the meeting row happen
after the transaction and do not touch balances.) -/
def twilio_webhook (h : String → String) (db : DB) (e : InEvent) (dur : Option ℚ)
    (now : ℤ) : DB × WebhookResult :=
  if dedupeHit db (dedupeKey h e) then (db, .duplicate)
  else afterDedupe db e (dedupeKey h e) dur now

/-- Two concurrent deliveries racing through the webhook: both dedupe reads
execute against the same initial snapshot before either reservation commits
(the reads are plain SELECTs outside any lock), then the two reservation
transactions serialize on the row lock. -/
def twoInterleaved (h : String → String) (db : DB) (e1 e2 : InEvent)
    (d1 d2 : Option ℚ) (now : ℤ) : DB :=
  let hit1 := dedupeHit db (dedupeKey h e1)
  let hit2 := dedupeHit db (dedupeKey h e2)
  let db1 := if hit1 then db else (afterDedupe db e1 (dedupeKey h e1) d1 now).1
  if hit2 then db1 else (afterDedupe db1 e2 (dedupeKey h e2) d2 now).1

/-! ### Other balance mutators (db.py) -/

/-- db.deduct_minutes: read the user (raw key first, then the normalized key
via get_or_create_user, creating a default row when both miss); return
untouched under an active subscription, else write back
`max(0, remaining - minutes)` through save_user. -/
def deduct_minutes (db : DB) (rawPhone : String) (minutes : ℚ) : DB :=
  match getUser db rawPhone with
  | some u =>
    if u.subActive then db
    else putUser db rawPhone { u with credits := max 0 (u.credits - minutes) }
  | none =>
    match getUser db (normalizePhoneStr rawPhone) with
    | some u =>
      if u.subActive then db
      else putUser db (normalizePhoneStr rawPhone)
             { u with credits := max 0 (u.credits - minutes) }
    | none =>
      if defaultUser.subActive then putUser db (normalizePhoneStr rawPhone) defaultUser
      else
        putUser (putUser db (normalizePhoneStr rawPhone) defaultUser)
          (normalizePhoneStr rawPhone)
          { defaultUser with credits := max 0 (defaultUser.credits - minutes) }

structure DecrementResult where
  ok : Bool
  deducted : Option ℚ
  remaining : ℚ
deriving DecidableEq

/-- db.decrement_minutes_if_available: normalize the phone, lock or create
the row, skip deduction under an active unexpired subscription, reject when
`credits_remaining < minutes_to_deduct`, else write the decremented balance.
The `with get_conn()` block commits on every non-raising exit, so the
created default row persists even on the insufficient path. -/
def decrement_minutes_if_available (db : DB) (rawPhone : String) (minutes : ℚ)
    (now : ℤ) : DB × DecrementResult :=
  match getUser db (normalizePhoneStr rawPhone) with
  | some u =>
    if subBypass u now then (db, ⟨true, some 0, u.credits⟩)
    else if u.credits < minutes then (db, ⟨false, none, u.credits⟩)
    else
      (putUser db (normalizePhoneStr rawPhone) { u with credits := u.credits - minutes },
       ⟨true, some minutes, u.credits - minutes⟩)
  | none =>
    if subBypass defaultUser now then
      (putUser db (normalizePhoneStr rawPhone) defaultUser,
       ⟨true, some 0, defaultUser.credits⟩)
    else if defaultUser.credits < minutes then
      (putUser db (normalizePhoneStr rawPhone) defaultUser,
       ⟨false, none, defaultUser.credits⟩)
    else
      (putUser (putUser db (normalizePhoneStr rawPhone) defaultUser)
         (normalizePhoneStr rawPhone)
         { defaultUser with credits := defaultUser.credits - minutes },
       ⟨true, some minutes, defaultUser.credits - minutes⟩)

/-- The reservation/deduction operations the no-negative-balance invariant
ranges over. -/
inductive BalanceOp
  | reserve (mediaUrl : String) (minutes : ℚ) (key : Option String) (now : ℤ)
  | deduct (minutes : ℚ)
  | decrement (minutes : ℚ) (now : ℤ)

def applyOp (phone : String) (db : DB) : BalanceOp → DB
  | .reserve url m key now => (reserveTxn db phone url m key now).1
  | .deduct m => deduct_minutes db phone m
  | .decrement m now => (decrement_minutes_if_available db phone m now).1

def runOps (phone : String) (db : DB) (ops : List BalanceOp) : DB :=
  ops.foldl (applyOp phone) db

/-- `credits_remaining >= 0` for every stored user row. -/
def creditsNonneg (db : DB) : Prop :=
  ∀ p ∈ db.users, 0 ≤ p.2.credits

instance (db : DB) : Decidable (creditsNonneg db) :=
  List.decidableBAll _ db.users

/-! ### Payment reconciliation engine (payments.py) -/

def paidStates : List String := ["captured", "paid", "authorized"]

def relevantEvents : List String :=
  ["payment_link.paid", "payment_link.payment_paid", "payment.captured",
   "payment.authorized", "payment.failed"]

/-- The payment entity extracted from the webhook payload (the nested-dict
scan of handle_webhook_event is collapsed into this already-extracted
record, `none` when no entity was found). -/
structure Entity where
  payId : String
  amount : Option ℤ
  status : Option String
  contact : Option String
deriving DecidableEq

structure WebhookEvent where
  eventName : String
  entity : Option Entity
deriving DecidableEq

inductive HandleResult
  | ignored
  | noEntity
  | done (phone : Option String) (prevStatus : Option String) (latest : String)
         (activated : Bool)
deriving DecidableEq

def activatedOf : HandleResult → Bool
  | .done _ _ _ a => a
  | _ => false

/-- payments.handle_webhook_event: filter the event name, lower-case the
status, normalize the contact (Python-falsy empty contact is dropped by the
`or` chain), read the previously recorded status, recover the phone from the
stored row when the event has none, upsert via record_payment, and activate
the subscription exactly when the (re-lowered) latest status is in the paid
set while the recorded previous status was falsy or outside it, provided the
phone is truthy. -/
def handle_webhook_event (db : DB) (ev : WebhookEvent) (now : ℤ) : DB × HandleResult :=
  if !(relevantEvents.contains ev.eventName) then (db, .ignored)
  else
    match ev.entity with
    | none => (db, .noEntity)
    | some ent =>
      let status := pyLower (ent.status.getD "")
      let phone0 : Option String :=
        match ent.contact with
        | some c => if c = "" then none else some (normalizePhoneStr c)
        | none => none
      let existing := findPayment db ent.payId
      let prevStatus : Option String := existing.map (fun r => pyLower (r.status.getD ""))
      let phone : Option String :=
        match phone0 with
        | some p => some p
        | none => existing.bind (fun r => r.phone)
      let db1 := (record_payment db phone ent.payId ent.amount status).1
      let latestRaw := (record_payment db phone ent.payId ent.amount status).2
      let latest := pyLower (latestRaw.getD status)
      let prevTruthy : Bool :=
        match prevStatus with
        | none => false
        | some p => p ≠ ""
      let shouldActivate :=
        paidStates.contains latest &&
          (!prevTruthy || !(paidStates.contains (prevStatus.getD "")))
      let phoneTruthy : Bool :=
        match phone with
        | none => false
        | some p => p ≠ ""
      if shouldActivate && phoneTruthy then
        (set_subscription_active db1 (phone.getD "") 30 now,
         .done phone prevStatus latest true)
      else
        (db1, .done phone prevStatus latest false)

/-- Fold a list of timed webhook deliveries through the handler. -/
def runEvents (db : DB) (evs : List (WebhookEvent × ℤ)) : DB :=
  evs.foldl (fun d p => (handle_webhook_event d p.1 p.2).1) db

/-- Whether the stored payment row for `payId` records a paid status. -/
def prevPaid (db : DB) (payId : String) : Bool :=
  match findPayment db payId with
  | some r => paidStates.contains (pyLower (r.status.getD ""))
  | none => false

/-- The `prev_status` the handler reads: the stored status, lower-cased,
with a row whose status is NULL read as the empty string. -/
def prevStatusOf (db : DB) (payId : String) : Option String :=
  (findPayment db payId).map (fun r => pyLower (r.status.getD ""))

/-- Whether a delivery carries a paid status (after lower-casing). -/
def isPaidDelivery (ev : WebhookEvent) : Bool :=
  match ev.entity with
  | some ent => paidStates.contains (pyLower (ent.status.getD ""))
  | none => false

def userSubActive (db : DB) (phone : String) : Bool :=
  match getUser db phone with
  | some u => u.subActive
  | none => false

def userSubExpiry (db : DB) (phone : String) : Option ℤ :=
  match getUser db phone with
  | some u => u.subExpiry
  | none => none

/-- A well-formed delivery for transaction `txid` carrying contact `c`. -/
def goodEv (txid c : String) (ev : WebhookEvent) : Bool :=
  relevantEvents.contains ev.eventName &&
    match ev.entity with
    | some ent => ent.payId == txid && ent.contact == some c
    | none => false

/-! ### Razorpay webhook route (app.razorpay_webhook) -/

/-- payments.verify_razorpay_webhook: `false` without a configured secret;
`true` when the SDK verification does not raise; otherwise the manual
HMAC comparison, with any exception there mapped to `false`. -/
def verify_razorpay_webhook (secretConfigured : Bool) (sdkVerify : Except Unit Unit)
    (manualCompare : Except Unit Bool) : Bool :=
  if !secretConfigured then false
  else
    match sdkVerify with
    | .ok _ => true
    | .error _ =>
      match manualCompare with
      | .ok b => b
      | .error _ => false

structure RouteOutcome where
  httpStatus : ℕ
  handlerInvoked : Bool
deriving DecidableEq

/-- app.razorpay_webhook: run verification (an exception counts as a failed
verification), reject with 400 before parsing when it fails, reject bad
JSON with 400, else delegate to handle_webhook_event and map its result to
an HTTP status.  (A `done` result carries no "status" key, so the route
falls through to the 500 branch — faithful to the source.) -/
def razorpay_webhook (db : DB) (verifyResult : Except Unit Bool)
    (parsed : Except Unit WebhookEvent) (now : ℤ) : DB × RouteOutcome :=
  let verified :=
    match verifyResult with
    | .ok b => b
    | .error _ => false
  if !verified then (db, ⟨400, false⟩)
  else
    match parsed with
    | .error _ => (db, ⟨400, false⟩)
    | .ok ev =>
      let (db', r) := handle_webhook_event db ev now
      match r with
      | .ignored => (db', ⟨204, true⟩)
      | .noEntity => (db', ⟨204, true⟩)
      | .done _ _ _ _ => (db', ⟨500, true⟩)

/-! ### Worker (process_meeting_task.process_meeting)

External collaborators are passed as explicit outcomes: the media download,
the transcription and the summarization each either raise (`error`) or
return a value.  The embedding records, in order, every external call the
run performs, and the write `mark_meeting_processed` issues, so that
idempotence is the statement `calls = [] ∧ dbWrite = none`. -/

inductive ExtCall
  | download
  | transcribe
  | summarize
  | sendMsg
deriving DecidableEq

structure WorkerOutcome where
  ok : Bool
  skipped : Bool
  calls : List ExtCall
  dbWrite : Option (String × Option String)
deriving DecidableEq

/-- Python truthiness of an optional string: `None` and `""` are falsy. -/
def pyTruthyOpt (o : Option String) : Bool :=
  match o with
  | none => false
  | some s => s ≠ ""

/-- Python `a or b` on optional strings. -/
def pyOrOpt (a b : Option String) : Option String :=
  if pyTruthyOpt a then a else b

/-- process_meeting: re-read the row; missing row fails; a truthy transcript
is the idempotency guard (skip, success, no external calls); otherwise
download, transcribe, summarize (a summarization failure keeps the
transcript and stores a null summary), persist, and send the outbound
message.  A download or transcription failure notifies the user and leaves
the row as it was. -/
def process_meeting (row : Option MeetingRow) (mediaUrlArg : Option String)
    (downloadRes : Except Unit Unit) (transcribeRes : Except Unit String)
    (summarizeRes : Except Unit String) : WorkerOutcome :=
  match row with
  | none => ⟨false, false, [], none⟩
  | some r =>
    if pyTruthyOpt r.transcript then ⟨true, true, [], none⟩
    else
      match pyOrOpt mediaUrlArg r.audioFile with
      | none => ⟨false, false, [], none⟩
      | some _ =>
        match downloadRes with
        | .error _ => ⟨false, false, [.download, .sendMsg], none⟩
        | .ok _ =>
          match transcribeRes with
          | .error _ => ⟨false, false, [.download, .transcribe, .sendMsg], none⟩
          | .ok t =>
            match summarizeRes with
            | .error _ =>
              ⟨true, false, [.download, .transcribe, .summarize, .sendMsg], some (t, none)⟩
            | .ok s =>
              ⟨true, false, [.download, .transcribe, .summarize, .sendMsg], some (t, some s)⟩

/-! ### Concrete fixtures used by witnesses and counterexamples -/

def exPhone : String := "whatsapp:+911234567890"

/-- A fresh user holding the default 30.0-minute grant. -/
def exUser : UserRow := ⟨30, false, none⟩

def exDb : DB := ⟨[(exPhone, exUser)], [], []⟩

/-- An inbound voice note from that user carrying MessageSid `SM1`. -/
def exEvent : InEvent := ⟨exPhone, some "SM1", some "http://x/a"⟩

/-- The meeting_notes row the reservation inserts for `exEvent`. -/
def exNote : MeetingRow := ⟨exPhone, some "http://x/a", none, none, some "SM1"⟩

/-- Scenario B of the spec: a user with 0.5 minutes left. -/
def userHalf : UserRow := ⟨1/2, false, none⟩

def dbHalf : DB := ⟨[(exPhone, userHalf)], [], []⟩

/-- A subscribed user (active, no expiry) with 5.0 minutes left. -/
def userSub : UserRow := ⟨5, true, none⟩

def dbSub : DB := ⟨[(exPhone, userSub)], [], []⟩

/-- A completed Work Item: transcript and summary populated. -/
def exDoneRow : MeetingRow := ⟨exPhone, some "http://x/a", some "t1", some "s1", some "SM1"⟩

/-- A Work Item whose transcript is non-null but empty (reachable: the
worker stores `transcript or ""` even when transcription yields ""). -/
def exEmptyRow : MeetingRow := ⟨exPhone, some "http://x/a", some "", some "old", some "SM1"⟩

/-- The raw contact the payment provider sends for `exPhone`. -/
def exContact : String := "+911234567890"

def entCaptured : Entity := ⟨"pay_1", some 499, some "captured", some exContact⟩

def entAuthorized : Entity := ⟨"pay_1", some 499, some "authorized", some exContact⟩

def evCaptured : WebhookEvent := ⟨"payment.captured", some entCaptured⟩

def evAuthorized : WebhookEvent := ⟨"payment.authorized", some entAuthorized⟩

/-! ### Association-list lemmas for the table model -/

theorem lookupUser_append (l m : List (String × UserRow)) (k : String) :
    lookupUser (l ++ m) k =
      (match lookupUser l k with
       | some u => some u
       | none => lookupUser m k) := by
  induction l with
  | nil => simp [lookupUser]
  | cons e t ih =>
    by_cases h : e.1 = k <;> simp [lookupUser, h, ih]

theorem lookupUser_updateUser_self (l : List (String × UserRow)) (k : String) (u : UserRow)
    (h : (lookupUser l k).isSome) : lookupUser (updateUser l k u) k = some u := by
  induction l with
  | nil => simp [lookupUser] at h
  | cons e t ih =>
    by_cases he : e.1 = k
    · simp [lookupUser, updateUser, he]
    · simp [lookupUser, updateUser, he] at h ⊢
      exact ih h

theorem lookupUser_updateUser_ne (l : List (String × UserRow)) (k q : String) (u : UserRow)
    (h : q ≠ k) : lookupUser (updateUser l k u) q = lookupUser l q := by
  induction l with
  | nil => simp [updateUser]
  | cons e t ih =>
    by_cases he : e.1 = k
    · have : k ≠ q := fun hk => h hk.symm
      simp [lookupUser, updateUser, he, this, ih]
    · simp [lookupUser, updateUser, he, ih]

theorem lookupUser_writeUser_self (l : List (String × UserRow)) (k : String) (u : UserRow) :
    lookupUser (writeUser l k u) k = some u := by
  unfold writeUser
  by_cases h : (lookupUser l k).isSome
  · simp [h, lookupUser_updateUser_self l k u h]
  · simp only [h, if_false, Bool.false_eq_true, ite_false, lookupUser_append]
    simp only [Option.isSome] at h
    rcases hl : lookupUser l k with _ | v
    · simp [lookupUser]
    · rw [hl] at h; simp at h

theorem lookupUser_writeUser_ne (l : List (String × UserRow)) (k q : String) (u : UserRow)
    (h : q ≠ k) : lookupUser (writeUser l k u) q = lookupUser l q := by
  unfold writeUser
  split
  · exact lookupUser_updateUser_ne l k q u h
  · rw [lookupUser_append]
    rcases hl : lookupUser l q with _ | v
    · show lookupUser [(k, u)] q = none
      simp only [lookupUser]
      rw [if_neg (fun hk : k = q => h hk.symm)]
    · rfl

theorem mem_updateUser (l : List (String × UserRow)) (k : String) (u : UserRow) :
    ∀ p ∈ updateUser l k u, p = (k, u) ∨ p ∈ l := by
  induction l with
  | nil => simp [updateUser]
  | cons e t ih =>
    intro p hp
    by_cases he : e.1 = k
    · simp only [updateUser] at hp
      rw [if_pos he] at hp
      rcases List.mem_cons.mp hp with hp | hp
      · exact Or.inl hp
      · rcases ih p hp with h' | h'
        · exact Or.inl h'
        · exact Or.inr (List.mem_cons_of_mem _ h')
    · simp only [updateUser] at hp
      rw [if_neg he] at hp
      rcases List.mem_cons.mp hp with hp | hp
      · exact Or.inr (hp ▸ List.mem_cons_self _ _)
      · rcases ih p hp with h' | h'
        · exact Or.inl h'
        · exact Or.inr (List.mem_cons_of_mem _ h')

theorem mem_writeUser (l : List (String × UserRow)) (k : String) (u : UserRow) :
    ∀ p ∈ writeUser l k u, p = (k, u) ∨ p ∈ l := by
  unfold writeUser
  split
  · exact mem_updateUser l k u
  · intro p hp
    rcases List.mem_append.mp hp with h | h
    · exact Or.inr h
    · simp at h; exact Or.inl h

theorem lookupUser_activateRows_self (l : List (String × UserRow)) (k : String) (exp : ℤ) :
    lookupUser (activateRows l k exp) k =
      (lookupUser l k).map
        (fun u => { u with subActive := true, subExpiry := some exp, credits := max u.credits 0 }) := by
  induction l with
  | nil => simp [activateRows, lookupUser]
  | cons e t ih =>
    by_cases he : e.1 = k <;> simp [activateRows, lookupUser, he, ih]

theorem lookupUser_activateRows_ne (l : List (String × UserRow)) (k q : String) (exp : ℤ)
    (h : q ≠ k) : lookupUser (activateRows l k exp) q = lookupUser l q := by
  induction l with
  | nil => simp [activateRows]
  | cons e t ih =>
    by_cases he : e.1 = k
    · have : k ≠ q := fun hk => h hk.symm
      simp [activateRows, lookupUser, he, this, ih]
    · simp [activateRows, lookupUser, he, ih]

/-! ### Payment-table lemmas -/

theorem lookupPayment_append (l m : List PaymentRow) (k : String) :
    lookupPayment (l ++ m) k =
      (match lookupPayment l k with
       | some r => some r
       | none => lookupPayment m k) := by
  induction l with
  | nil => simp [lookupPayment]
  | cons e t ih =>
    by_cases h : e.payId = k <;> simp [lookupPayment, h, ih]

theorem lookupPayment_updatePayment_self (l : List PaymentRow) (r : PaymentRow)
    (h : (lookupPayment l r.payId).isSome) :
    lookupPayment (updatePayment l r) r.payId = some r := by
  induction l with
  | nil => simp [lookupPayment] at h
  | cons e t ih =>
    by_cases he : e.payId = r.payId
    · simp [lookupPayment, updatePayment, he]
    · simp [lookupPayment, updatePayment, he] at h ⊢
      exact ih h

theorem record_payment_users (db : DB) (phone : Option String) (payId : String)
    (amount : Option ℤ) (status : String) :
    (record_payment db phone payId amount status).1.users = db.users := by
  unfold record_payment
  split <;> rfl

theorem record_payment_latest (db : DB) (phone : Option String) (payId : String)
    (amount : Option ℤ) (status : String) :
    (record_payment db phone payId amount status).2 = some status := by
  unfold record_payment
  split <;> rfl

theorem findPayment_record_self (db : DB) (phone : Option String) (payId : String)
    (amount : Option ℤ) (status : String) :
    findPayment (record_payment db phone payId amount status).1 payId
      = some ⟨phone, payId, amount, some status⟩ := by
  unfold findPayment record_payment
  by_cases h : (lookupPayment db.payments payId).isSome
  · simpa [h] using lookupPayment_updatePayment_self db.payments ⟨phone, payId, amount, some status⟩ h
  · simp only [h, if_false, Bool.false_eq_true, ite_false]
    rw [lookupPayment_append]
    rcases hl : lookupPayment db.payments payId with _ | v
    · show lookupPayment [⟨phone, payId, amount, some status⟩] payId
          = some ⟨phone, payId, amount, some status⟩
      simp [lookupPayment]
    · rw [hl] at h; simp at h

/-! ### Lower-casing lemmas -/

theorem pyLowerChar_idem (c : Char) : pyLowerChar (pyLowerChar c) = pyLowerChar c := by
  by_cases h : 65 ≤ c.toNat ∧ c.toNat ≤ 90
  · have h1 : pyLowerChar c = Char.ofNat (c.toNat + 32) := by rw [pyLowerChar, if_pos h]
    rw [h1]
    obtain ⟨ha, hb⟩ := h
    set n := c.toNat with hn
    interval_cases n <;> decide
  · have h1 : pyLowerChar c = c := by rw [pyLowerChar, if_neg h]
    simp only [h1]

theorem pyLower_idem (s : String) : pyLower (pyLower s) = pyLower s := by
  have key : ∀ l : List Char, (l.map pyLowerChar).map pyLowerChar = l.map pyLowerChar := by
    intro l
    induction l with
    | nil => rfl
    | cons a t ih => simp [pyLowerChar_idem, ih]
  exact congrArg String.mk (key s.data)

/-! ### Normalization lemmas (utils.normalize_phone_for_db) -/

theorem tag_of_append (d : List Char) :
    whatsappTag.isPrefixOf ("whatsapp:+".toList ++ d) = true := rfl

theorem tag_ne_nil (r : List Char) (h : whatsappTag.isPrefixOf r = true) : r ≠ [] := by
  intro he
  rw [he] at h
  simp [whatsappTag, List.isPrefixOf] at h

theorem normalize_eq_of_ne (s : List Char) (hs : s ≠ []) :
    normalize_phone_for_db s =
      if whatsappTag.isPrefixOf (pyStrip s) then pyStrip s
      else "whatsapp:+".toList ++ normDigits (removeChar '-' (removeChar ' ' (pyStrip s))) := by
  unfold normalize_phone_for_db
  rw [if_neg (by simp [List.isEmpty_iff, hs])]

theorem normalize_tag (s : List Char) (hs : s ≠ []) :
    whatsappTag.isPrefixOf (normalize_phone_for_db s) = true := by
  rw [normalize_eq_of_ne s hs]
  by_cases hp : whatsappTag.isPrefixOf (pyStrip s) = true
  · rw [if_pos hp]; exact hp
  · rw [if_neg hp]; exact tag_of_append _

theorem normalize_idem_of_stripped (s : List Char)
    (h : pyStrip (normalize_phone_for_db s) = normalize_phone_for_db s) :
    normalize_phone_for_db (normalize_phone_for_db s) = normalize_phone_for_db s := by
  by_cases hs : s = []
  · subst hs; rfl
  · have htag := normalize_tag s hs
    have hne := tag_ne_nil _ htag
    rw [normalize_eq_of_ne _ hne, h, if_pos htag]

theorem normalizePhoneStr_ne (c : String) (hc : c ≠ "") : normalizePhoneStr c ≠ "" := by
  intro h
  have hd : c.data ≠ [] := fun hnil => hc (String.ext hnil)
  have hne := tag_ne_nil _ (normalize_tag c.data hd)
  apply hne
  have hcast : (normalizePhoneStr c).data = normalize_phone_for_db c.data := rfl
  rw [h] at hcast
  exact hcast.symm

/-! ## Claim C10 -/

/-- C10: the claim that `normalize_phone_for_db` is idempotent on every
string fails: on the input `"+1\t-"` the first pass keeps the interior tab
(only spaces and dashes are removed after stripping), producing
`"whatsapp:+1\t"`, while the second pass strips the now-trailing tab and
returns `"whatsapp:+1"`. -/
theorem c10_counterexample :
    ¬ (normalize_phone_for_db (normalize_phone_for_db ("+1\t-".toList))
        = normalize_phone_for_db ("+1\t-".toList)) := by
  decide

/-- C10 (amended): every non-empty input normalizes to a string beginning
with `whatsapp:`, and re-normalizing is the identity whenever the first
result carries no leading or trailing whitespace (in particular on every
already-stored `whatsapp:+<digits>` key); full idempotence fails only on
inputs whose normalization has edge whitespace, as in the counterexample. -/
theorem c10_amended (s : List Char) :
    (s ≠ [] → whatsappTag.isPrefixOf (normalize_phone_for_db s) = true) ∧
    (pyStrip (normalize_phone_for_db s) = normalize_phone_for_db s →
      normalize_phone_for_db (normalize_phone_for_db s) = normalize_phone_for_db s) :=
  ⟨normalize_tag s, normalize_idem_of_stripped s⟩

/-- Witness for C10 (amended) at the stored-form input `"919876543210"`. -/
theorem c10_amended_witness :
    whatsappTag.isPrefixOf (normalize_phone_for_db ("919876543210".toList)) = true ∧
    normalize_phone_for_db (normalize_phone_for_db ("919876543210".toList))
      = normalize_phone_for_db ("919876543210".toList) :=
  ⟨(c10_amended _).1 (by decide), (c10_amended _).2 (by decide)⟩

/-! ### Reservation lemmas -/

theorem toDeductOf_zero (u : UserRow) (now : ℤ) : toDeductOf u 0 now = 0 := by
  unfold toDeductOf
  split <;> rfl

theorem pyRound2_zero : pyRound2 (0 / 60 : ℚ) = 0 := by
  norm_num [pyRound2, roundHalfEven]

theorem reserveTxn_zero (db : DB) (phone url : String) (key : Option String) (now : ℤ) :
    reserveTxn db phone url 0 key now
      = ({ users := writeUser db.users phone (effectiveUser db phone),
           notes := db.notes ++ [⟨phone, some url, none, none, key⟩],
           payments := db.payments }, .accepted) := by
  simp only [reserveTxn, toDeductOf_zero, gt_iff_lt, lt_self_iff_false, false_and,
    if_false, ite_false, putUser]

/-- A webhook run whose media duration cannot be determined charges 0
minutes: every existing user keeps their exact credit balance. -/
theorem webhook_none_duration_credits (h : String → String) (db : DB) (e : InEvent)
    (now : ℤ) (p : String) (u : UserRow) (hu : getUser db p = some u) :
    ∃ u', getUser (twilio_webhook h db e none now).1 p = some u'
        ∧ u'.credits = u.credits := by
  unfold twilio_webhook
  by_cases hd : dedupeHit db (dedupeKey h e) = true
  · simp only [hd, if_true]
    exact ⟨u, hu, rfl⟩
  · simp only [hd, if_false, Bool.false_eq_true, ite_false]
    unfold afterDedupe
    rcases hm : e.mediaUrl with _ | url
    · exact ⟨u, hu, rfl⟩
    · simp only [compute_audio_duration_seconds, pyRound2_zero]
      rw [reserveTxn_zero]
      by_cases hp : p = appNormalizePhone e.sender
      · refine ⟨effectiveUser db (appNormalizePhone e.sender), ?_, ?_⟩
        · show lookupUser (writeUser db.users (appNormalizePhone e.sender)
              (effectiveUser db (appNormalizePhone e.sender))) p = _
          rw [hp]
          exact lookupUser_writeUser_self db.users _ _
        · rw [hp] at hu
          unfold effectiveUser
          rw [show getUser db (appNormalizePhone e.sender) = some u from hu]
          rfl
      · refine ⟨u, ?_, rfl⟩
        show lookupUser (writeUser db.users (appNormalizePhone e.sender) _) p = some u
        rw [lookupUser_writeUser_ne _ _ _ _ hp]
        exact hu

/-! ## Claim C6 -/

/-- C6: the claim is false.  The duration helper the metering path calls is
`compute_audio_duration_seconds` (app.py line 531 calls it, line 404 defines
it), and on an asset whose duration cannot be determined it returns `0.0`,
not the documented 60-second fallback. -/
theorem c6_counterexample :
    compute_audio_duration_seconds none = 0 ∧
    compute_audio_duration_seconds none ≠ 60 := by
  constructor
  · rfl
  · norm_num [compute_audio_duration_seconds]

/-- C6 (amended): when the duration cannot be determined the metering
computation `compute_audio_duration_seconds` returns `0.0` — the note is
accepted free of charge rather than billed the conservative 1.0 minute, so
no existing user's balance changes; the 60-second worst-case fallback lives
only in `get_audio_duration_seconds` (and only after a size-based estimate),
a helper the metering path does not call. -/
theorem c6_amended (h : String → String) (db : DB) (e : InEvent) (now : ℤ)
    (p : String) (u : UserRow) (hu : getUser db p = some u) :
    compute_audio_duration_seconds none = 0 ∧
    get_audio_duration_seconds none none = 60 ∧
    ∃ u', getUser (twilio_webhook h db e none now).1 p = some u'
        ∧ u'.credits = u.credits :=
  ⟨rfl, rfl, webhook_none_duration_credits h db e now p u hu⟩

/-- Witness for C6 (amended) on the 30-minute user. -/
theorem c6_amended_witness :
    getUser exDb exPhone = some exUser ∧
    (compute_audio_duration_seconds none = 0 ∧
     get_audio_duration_seconds none none = 60 ∧
     ∃ u', getUser (twilio_webhook id exDb exEvent none 0).1 exPhone = some u'
         ∧ u'.credits = exUser.credits) :=
  ⟨rfl, c6_amended id exDb exEvent 0 exPhone exUser rfl⟩

/-! ### No-negative-balance lemmas -/

theorem lookupUser_mem (l : List (String × UserRow)) (k : String) (v : UserRow)
    (h : lookupUser l k = some v) : (k, v) ∈ l := by
  induction l with
  | nil => simp [lookupUser] at h
  | cons e t ih =>
    simp only [lookupUser] at h
    split at h
    next he =>
      obtain rfl : e.2 = v := Option.some.inj h
      exact List.mem_cons.mpr (Or.inl (by rw [← he]))
    next he => exact List.mem_cons_of_mem _ (ih h)

theorem creditsNonneg_effective (db : DB) (phone : String) (h : creditsNonneg db) :
    0 ≤ (effectiveUser db phone).credits := by
  unfold effectiveUser
  rcases hl : getUser db phone with _ | v
  · norm_num [defaultUser]
  · exact h _ (lookupUser_mem db.users phone v hl)

theorem creditsNonneg_write (db : DB) (k : String) (u : UserRow) (h : creditsNonneg db)
    (hu : 0 ≤ u.credits) : creditsNonneg (putUser db k u) := by
  intro p hp
  rcases mem_writeUser db.users k u p hp with h1 | h1
  · rw [h1]; exact hu
  · exact h p h1

theorem reserve_preserves (db : DB) (phone url : String) (m : ℚ) (key : Option String)
    (now : ℤ) (h : creditsNonneg db) :
    creditsNonneg (reserveTxn db phone url m key now).1 := by
  simp only [reserveTxn]
  split
  · exact h
  next hc =>
    have hu' : 0 ≤ (if toDeductOf (effectiveUser db phone) m now > 0 then
        { effectiveUser db phone with
          credits := (effectiveUser db phone).credits - toDeductOf (effectiveUser db phone) m now }
      else effectiveUser db phone).credits := by
      split
      next hd =>
        push_neg at hc
        have := hc hd
        simpa using this
      next => exact creditsNonneg_effective db phone h
    exact creditsNonneg_write db phone _ h hu'

theorem deduct_preserves (db : DB) (rawPhone : String) (m : ℚ) (h : creditsNonneg db) :
    creditsNonneg (deduct_minutes db rawPhone m) := by
  unfold deduct_minutes
  split
  next u hu =>
    split
    · exact h
    · exact creditsNonneg_write db rawPhone _ h (le_max_left 0 _)
  next hu =>
    split
    next v hv =>
      split
      · exact h
      · exact creditsNonneg_write db _ _ h (le_max_left 0 _)
    next hv =>
      split
      · exact creditsNonneg_write db _ _ h (by norm_num [defaultUser])
      · exact creditsNonneg_write _ _ _
          (creditsNonneg_write db _ _ h (by norm_num [defaultUser])) (le_max_left 0 _)

theorem decrement_preserves (db : DB) (rawPhone : String) (m : ℚ) (now : ℤ)
    (h : creditsNonneg db) :
    creditsNonneg (decrement_minutes_if_available db rawPhone m now).1 := by
  unfold decrement_minutes_if_available
  have hd : creditsNonneg (putUser db (normalizePhoneStr rawPhone) defaultUser) :=
    creditsNonneg_write db _ _ h (by norm_num [defaultUser])
  split
  next u hu =>
    split
    · exact h
    · split
      · exact h
      next hlt =>
        apply creditsNonneg_write db _ _ h
        show 0 ≤ u.credits - m
        push_neg at hlt
        simpa using hlt
  next hu =>
    split
    · exact hd
    · split
      · exact hd
      next hlt =>
        apply creditsNonneg_write _ _ _ hd
        show 0 ≤ defaultUser.credits - m
        push_neg at hlt
        simpa using hlt

/-! ## Claim C3 -/

/-- C3: for every user and every sequence of reservation and deduction
operations — the webhook reservation, `deduct_minutes` and
`decrement_minutes_if_available` — a database in which every stored
`credits_remaining` is non-negative stays that way: no operation can drive a
balance below zero. -/
theorem c3_no_negative_balance (phone : String) (db : DB) (ops : List BalanceOp)
    (h : creditsNonneg db) : creditsNonneg (runOps phone db ops) := by
  induction ops generalizing db with
  | nil => exact h
  | cons op t ih =>
    refine ih (applyOp phone db op) ?_
    cases op with
    | reserve url m key now => exact reserve_preserves db phone url m key now h
    | deduct m => exact deduct_preserves db phone m h
    | decrement m now => exact decrement_preserves db phone m now h

/-- Witness for C3: a reservation, an oversized `deduct_minutes` and an
oversized `decrement_minutes_if_available` against the 30-minute user. -/
theorem c3_no_negative_balance_witness :
    creditsNonneg exDb ∧
    creditsNonneg (runOps exPhone exDb
      [.reserve "http://x/a" 2 (some "SM1") 0, .deduct 100, .decrement 50 0]) :=
  ⟨by decide, c3_no_negative_balance exPhone exDb _ (by decide)⟩

/-! ### Subscription-bypass lemmas -/

theorem subBypass_true (u : UserRow) (now : ℤ) (hact : u.subActive = true)
    (hexp : u.subExpiry = none ∨ ∃ t, u.subExpiry = some t ∧ now < t) :
    subBypass u now = true := by
  unfold subBypass
  rw [hact]
  rcases hexp with h | ⟨t, ht, hlt⟩
  · rw [h]; rfl
  · rw [ht]
    simp [hlt]

theorem reserveTxn_bypass (db : DB) (phone url : String) (m : ℚ) (key : Option String)
    (now : ℤ) (u : UserRow) (hu : getUser db phone = some u)
    (hb : subBypass u now = true) :
    reserveTxn db phone url m key now
      = ({ users := writeUser db.users phone u,
           notes := db.notes ++ [⟨phone, some url, none, none, key⟩],
           payments := db.payments }, .accepted) := by
  have heff : effectiveUser db phone = u := by
    unfold effectiveUser; rw [hu]; rfl
  have hd : toDeductOf u m now = 0 := by
    unfold toDeductOf; rw [if_pos hb]
  simp only [reserveTxn, heff, hd, gt_iff_lt, lt_self_iff_false, false_and,
    if_false, ite_false, putUser]

/-! ## Claim C4 -/

/-- C4: for a user with `subscription_active` and expiry null or strictly in
the future, `to_deduct` is 0 whatever the requested minutes, the reservation
is accepted and leaves every user row exactly as it was (in particular the
credits), and `decrement_minutes_if_available` likewise deducts 0 and leaves
the database untouched. -/
theorem c4_subscription_bypass (db : DB) (phone url rawPhone : String) (m : ℚ)
    (key : Option String) (now : ℤ) (u : UserRow)
    (hu : getUser db phone = some u)
    (hn : getUser db (normalizePhoneStr rawPhone) = some u)
    (hact : u.subActive = true)
    (hexp : u.subExpiry = none ∨ ∃ t, u.subExpiry = some t ∧ now < t) :
    toDeductOf u m now = 0 ∧
    (reserveTxn db phone url m key now).2 = .accepted ∧
    (∀ q, getUser (reserveTxn db phone url m key now).1 q = getUser db q) ∧
    decrement_minutes_if_available db rawPhone m now = (db, ⟨true, some 0, u.credits⟩) := by
  have hb := subBypass_true u now hact hexp
  have hres := reserveTxn_bypass db phone url m key now u hu hb
  refine ⟨?_, ?_, ?_, ?_⟩
  · unfold toDeductOf; rw [if_pos hb]
  · rw [hres]
  · intro q
    rw [hres]
    by_cases hq : q = phone
    · subst hq
      show lookupUser (writeUser db.users q u) q = _
      rw [lookupUser_writeUser_self, hu]
    · show lookupUser (writeUser db.users phone u) q = _
      rw [lookupUser_writeUser_ne _ _ _ _ hq]
      rfl
  · simp only [decrement_minutes_if_available, hn]
    rw [if_pos hb]

/-- Witness for C4 on a subscribed user with 5.0 minutes and a 100-minute
request. -/
theorem c4_subscription_bypass_witness :
    getUser dbSub exPhone = some userSub ∧
    userSub.subActive = true ∧
    (toDeductOf userSub 100 0 = 0 ∧
     (reserveTxn dbSub exPhone "http://x/a" 100 (some "SM1") 0).2 = .accepted ∧
     (∀ q, getUser (reserveTxn dbSub exPhone "http://x/a" 100 (some "SM1") 0).1 q
         = getUser dbSub q) ∧
     decrement_minutes_if_available dbSub exPhone 100 0
       = (dbSub, ⟨true, some 0, userSub.credits⟩)) :=
  ⟨rfl, rfl,
    c4_subscription_bypass dbSub exPhone "http://x/a" exPhone 100 (some "SM1") 0 userSub
      rfl rfl rfl (Or.inl rfl)⟩

/-! ## Claim C5 -/

/-- C5: the reservation returns the insufficient-credits rejection exactly
when `to_deduct > 0` and `credits_remaining < to_deduct`, and on rejection
the rollback leaves the database unchanged (no deduction, no meeting_notes
row); the spec's scenario B — balance 0.5, 2.0 minutes needed — is rejected
with the balance still 0.5. -/
theorem c5_insufficient_rejection (db : DB) (phone url : String) (m : ℚ)
    (key : Option String) (now : ℤ) :
    ((reserveTxn db phone url m key now).2 = .insufficient ↔
      (toDeductOf (effectiveUser db phone) m now > 0 ∧
       (effectiveUser db phone).credits < toDeductOf (effectiveUser db phone) m now)) ∧
    ((reserveTxn db phone url m key now).2 = .insufficient →
      (reserveTxn db phone url m key now).1 = db) ∧
    reserveTxn dbHalf exPhone "http://x/a" 2 none 0 = (dbHalf, .insufficient) := by
  refine ⟨?_, ?_, ?_⟩
  · simp only [reserveTxn]
    by_cases hc : toDeductOf (effectiveUser db phone) m now > 0 ∧
        (effectiveUser db phone).credits < toDeductOf (effectiveUser db phone) m now
    · rw [if_pos hc]
      exact ⟨fun _ => hc, fun _ => rfl⟩
    · rw [if_neg hc]
      refine ⟨fun h => ?_, fun h => absurd h hc⟩
      exact absurd h (by simp)
  · simp only [reserveTxn]
    by_cases hc : toDeductOf (effectiveUser db phone) m now > 0 ∧
        (effectiveUser db phone).credits < toDeductOf (effectiveUser db phone) m now
    · rw [if_pos hc]
      exact fun _ => rfl
    · rw [if_neg hc]
      intro h
      exact absurd h (by simp)
  · norm_num [reserveTxn, effectiveUser, getUser, lookupUser, dbHalf, userHalf, exPhone,
      toDeductOf, subBypass]

/-! ### Dedupe lemmas and concrete webhook evaluation -/

theorem reserveTxn_accepted_notes (db : DB) (phone url : String) (m : ℚ)
    (key : Option String) (now : ℤ)
    (h : (reserveTxn db phone url m key now).2 = .accepted) :
    (reserveTxn db phone url m key now).1.notes
      = db.notes ++ [⟨phone, some url, none, none, key⟩] := by
  simp only [reserveTxn]
  split
  next hc =>
    exfalso
    simp only [reserveTxn] at h
    rw [if_pos hc] at h
    exact absurd h (by simp)
  next hc => simp [putUser]

theorem afterDedupe_none (db : DB) (e : InEvent) (key : Option String) (d : Option ℚ)
    (now : ℤ) (hm : e.mediaUrl = none) :
    afterDedupe db e key d now = (db, .noMedia) := by
  unfold afterDedupe
  rw [hm]

theorem afterDedupe_accepted_notes (db : DB) (e : InEvent) (key : Option String)
    (d : Option ℚ) (now : ℤ) (url : String) (hm : e.mediaUrl = some url)
    (h : (afterDedupe db e key d now).2 = .accepted) :
    (afterDedupe db e key d now).1.notes
      = db.notes ++ [⟨appNormalizePhone e.sender, some url, none, none, key⟩] := by
  unfold afterDedupe at h ⊢
  rw [hm] at h ⊢
  dsimp only at h ⊢
  rcases hr : (reserveTxn db (appNormalizePhone e.sender) url
      (pyRound2 (compute_audio_duration_seconds d / 60)) key now).2 with _ | _
  · exact reserveTxn_accepted_notes _ _ _ _ _ _ hr
  · rw [hr] at h
    exact absurd h (by simp)

theorem minutesEval120 : pyRound2 (compute_audio_duration_seconds (some 120) / 60) = 2 := by
  norm_num [pyRound2, compute_audio_duration_seconds, roundHalfEven]

theorem reserveEval1 : reserveTxn exDb exPhone "http://x/a" 2 (some "SM1") 0
    = (⟨[(exPhone, ⟨28, false, none⟩)], [exNote], []⟩, .accepted) := by
  norm_num [reserveTxn, effectiveUser, getUser, lookupUser, exDb, exUser, exPhone, exNote,
    toDeductOf, subBypass, putUser, writeUser, updateUser]

theorem reserveEval2 : reserveTxn ⟨[(exPhone, ⟨28, false, none⟩)], [exNote], []⟩ exPhone
      "http://x/a" 2 (some "SM1") 0
    = (⟨[(exPhone, ⟨26, false, none⟩)], [exNote, exNote], []⟩, .accepted) := by
  norm_num [reserveTxn, effectiveUser, getUser, lookupUser, exPhone, exNote,
    toDeductOf, subBypass, putUser, writeUser, updateUser]

theorem afterDedupeEval1 : afterDedupe exDb exEvent (some "SM1") (some 120) 0
    = (⟨[(exPhone, ⟨28, false, none⟩)], [exNote], []⟩, .accepted) := by
  unfold afterDedupe
  rw [show exEvent.mediaUrl = some "http://x/a" from rfl]
  dsimp only
  rw [show appNormalizePhone exEvent.sender = exPhone from by decide, minutesEval120,
    reserveEval1]

theorem afterDedupeEval2 : afterDedupe ⟨[(exPhone, ⟨28, false, none⟩)], [exNote], []⟩ exEvent
      (some "SM1") (some 120) 0
    = (⟨[(exPhone, ⟨26, false, none⟩)], [exNote, exNote], []⟩, .accepted) := by
  unfold afterDedupe
  rw [show exEvent.mediaUrl = some "http://x/a" from rfl]
  dsimp only
  rw [show appNormalizePhone exEvent.sender = exPhone from by decide, minutesEval120,
    reserveEval2]

/-- The interleaved double delivery of `exEvent` against `exDb`: both dedupe
reads see the empty meeting_notes table, so both reservations run. -/
theorem interleavedEval : twoInterleaved id exDb exEvent exEvent (some 120) (some 120) 0
    = ⟨[(exPhone, ⟨26, false, none⟩)], [exNote, exNote], []⟩ := by
  simp only [twoInterleaved]
  rw [show dedupeKey id exEvent = some "SM1" from rfl,
      show dedupeHit exDb (some "SM1") = false from rfl]
  simp only [Bool.false_eq_true, if_false, ite_false]
  rw [afterDedupeEval1]
  exact congrArg Prod.fst afterDedupeEval2

theorem webhookEval1 : twilio_webhook id exDb exEvent (some 120) 0
    = (⟨[(exPhone, ⟨28, false, none⟩)], [exNote], []⟩, .accepted) := by
  rw [twilio_webhook, show dedupeKey id exEvent = some "SM1" from rfl,
    if_neg (by decide : ¬ dedupeHit exDb (some "SM1") = true)]
  exact afterDedupeEval1

/-! ## Claim C1 -/

/-- C1: the claim is false as stated.  init_db creates meeting_notes with no
`message_sid` column and no unique index on it (the only unique keys are
`users.phone` and `payments.razorpay_payment_id`), and the webhook's dedupe
is a prior `SELECT` — so when two deliveries of the same MessageSid `SM1`
interleave (both dedupe reads before either insert), both reservations
commit: two meeting_notes rows carry the key and the 30.0-minute balance is
charged twice (2.0 + 2.0), ending at 26.0. -/
theorem c1_counterexample :
    ((twoInterleaved id exDb exEvent exEvent (some 120) (some 120) 0).notes.filter
        (fun n => n.messageSid = some "SM1")).length = 2 ∧
    getUser (twoInterleaved id exDb exEvent exEvent (some 120) (some 120) 0) exPhone
      = some ⟨26, false, none⟩ ∧
    "meeting_notes" ∉ initDbUniqueIndexes.map Prod.fst ∧
    "message_sid" ∉ meetingNotesColumnsInitDb := by
  rw [interleavedEval]
  exact ⟨by decide, rfl, by decide, by decide⟩

/-- C1 (amended): under sequential (non-interleaved) processing the claim's
outcome holds, but the mechanism is the opposite of the one claimed: after a
delivery with idempotency key `k` is accepted, a second delivery with key
`k` is answered `Duplicate` with the database unchanged, detected by the
prior read on meeting_notes.message_sid — init_db declares no unique
constraint on the Work Item's idempotency key, so nothing stops concurrent
interleaved deliveries from both inserting. -/
theorem c1_amended (h : String → String) (db : DB) (e1 e2 : InEvent)
    (d1 d2 : Option ℚ) (now1 now2 : ℤ) (k : String)
    (hk1 : dedupeKey h e1 = some k) (hk2 : dedupeKey h e2 = some k)
    (hacc : (twilio_webhook h db e1 d1 now1).2 = .accepted) :
    twilio_webhook h (twilio_webhook h db e1 d1 now1).1 e2 d2 now2
      = ((twilio_webhook h db e1 d1 now1).1, .duplicate) ∧
    "meeting_notes" ∉ initDbUniqueIndexes.map Prod.fst := by
  refine ⟨?_, by decide⟩
  by_cases hd : dedupeHit db (dedupeKey h e1) = true
  · rw [twilio_webhook, if_pos hd] at hacc
    exact absurd hacc (by simp)
  · have hfirst : twilio_webhook h db e1 d1 now1
        = afterDedupe db e1 (dedupeKey h e1) d1 now1 := by
      rw [twilio_webhook, if_neg hd]
    rw [hfirst] at hacc ⊢
    rcases hm : e1.mediaUrl with _ | url
    · rw [afterDedupe_none db e1 (dedupeKey h e1) d1 now1 hm] at hacc
      exact absurd hacc (by simp)
    · have hnotes := afterDedupe_accepted_notes db e1 (dedupeKey h e1) d1 now1 url hm hacc
      have hhit : dedupeHit (afterDedupe db e1 (dedupeKey h e1) d1 now1).1 (some k) = true := by
        unfold dedupeHit
        rw [hnotes, hk1]
        simp [List.any_append]
      rw [twilio_webhook, hk2, if_pos hhit]

/-- Witness for C1 (amended): the accepted delivery of `exEvent` followed by
its redelivery, which is answered `Duplicate` without touching the state. -/
theorem c1_amended_witness :
    dedupeKey id exEvent = some "SM1" ∧
    (twilio_webhook id exDb exEvent (some 120) 0).2 = .accepted ∧
    (twilio_webhook id (twilio_webhook id exDb exEvent (some 120) 0).1 exEvent (some 120) 1
        = ((twilio_webhook id exDb exEvent (some 120) 0).1, .duplicate) ∧
     "meeting_notes" ∉ initDbUniqueIndexes.map Prod.fst) :=
  ⟨rfl, by rw [webhookEval1],
    c1_amended id exDb exEvent exEvent (some 120) (some 120) 0 1 "SM1" rfl rfl
      (by rw [webhookEval1])⟩

/-! ## Claim C7 -/

/-- C7: the reservation transaction is atomic.  With an explicit exception
oracle over every interruption point of the `with get_conn()` block, either
the published database is exactly the initial one (exception or rejection:
rollback discards the pending deduction, user creation and insert), or the
outcome is `accepted` and the committed state carries both the meeting_notes
row and the deducted balance together; the oracle-free run coincides with
the plain transaction. -/
theorem c7_transaction_atomicity (db : DB) (phone url : String) (m : ℚ)
    (key : Option String) (now : ℤ) (fp : FailPoint) :
    reserveTxnFail db phone url m key now .noFail
      = ((reserveTxn db phone url m key now).1, some (reserveTxn db phone url m key now).2) ∧
    (((reserveTxnFail db phone url m key now fp).1 = db ∧
       (reserveTxnFail db phone url m key now fp).2 ≠ some .accepted) ∨
     ((reserveTxnFail db phone url m key now fp).2 = some .accepted ∧
       (reserveTxnFail db phone url m key now fp).1.notes
         = db.notes ++ [⟨phone, some url, none, none, key⟩] ∧
       getUser (reserveTxnFail db phone url m key now fp).1 phone
         = some (if toDeductOf (effectiveUser db phone) m now > 0 then
             { effectiveUser db phone with
               credits := (effectiveUser db phone).credits
                 - toDeductOf (effectiveUser db phone) m now }
           else effectiveUser db phone))) := by
  constructor
  · simp only [reserveTxnFail, reserveTxn]
    split
    next h => simp at h
    next h =>
      split
      · rfl
      · simp
  · cases fp with
    | noFail =>
      simp only [reserveTxnFail]
      split
      next h => simp at h
      next h =>
        split
        next hc => exact Or.inl ⟨rfl, by simp⟩
        next hc =>
          refine Or.inr ⟨?_, ?_, ?_⟩
          · simp
          · simp [putUser]
          · show lookupUser (writeUser db.users phone _) phone = _
            rw [lookupUser_writeUser_self]
    | afterLock =>
      exact Or.inl ⟨rfl, by simp [reserveTxnFail]⟩
    | afterDeduct =>
      simp only [reserveTxnFail]
      split
      next h => simp at h
      next h =>
        split
        next hc => exact Or.inl ⟨rfl, by simp⟩
        next hc => exact Or.inl ⟨rfl, by simp⟩
    | afterInsert =>
      simp only [reserveTxnFail]
      split
      next h => simp at h
      next h =>
        split
        next hc => exact Or.inl ⟨rfl, by simp⟩
        next hc => exact Or.inl ⟨rfl, by simp⟩

/-! ## Claim C8 -/

/-- C8: the claim is false as stated.  The worker's idempotency guard is
Python truthiness (`if row.get("transcript")`), not a null test: a Work
Item whose transcript is the non-null empty string is reprocessed in full —
the run downloads, transcribes, summarizes, sends the outbound message and
overwrites the stored transcript and summary. -/
theorem c8_counterexample :
    exEmptyRow.transcript ≠ none ∧
    (process_meeting (some exEmptyRow) none (.ok ()) (.ok "newT") (.ok "newS")).calls
      = [.download, .transcribe, .summarize, .sendMsg] ∧
    (process_meeting (some exEmptyRow) none (.ok ()) (.ok "newT") (.ok "newS")).dbWrite
      = some ("newT", some "newS") := by
  refine ⟨by decide, rfl, rfl⟩

/-- C8 (amended): the worker is idempotent on redelivery for every Work Item
whose transcript is non-null *and non-empty*: the run performs no external
call (no download, transcription, summarization or outbound message), writes
nothing back, and returns success with the skipped flag. -/
theorem c8_amended (r : MeetingRow) (arg : Option String) (dl : Except Unit Unit)
    (tr : Except Unit String) (su : Except Unit String) (t : String)
    (ht : r.transcript = some t) (hne : t ≠ "") :
    process_meeting (some r) arg dl tr su = ⟨true, true, [], none⟩ := by
  simp [process_meeting, pyTruthyOpt, ht, hne]

/-- Witness for C8 (amended) on the completed Work Item. -/
theorem c8_amended_witness :
    exDoneRow.transcript = some "t1" ∧ "t1" ≠ "" ∧
    process_meeting (some exDoneRow) none (.ok ()) (.ok "x") (.ok "y")
      = ⟨true, true, [], none⟩ :=
  ⟨rfl, by decide,
    c8_amended exDoneRow none (.ok ()) (.ok "x") (.ok "y") "t1" rfl (by decide)⟩

/-! ## Claim C9 -/

/-- C9: a payment webhook whose signature verification fails — returns
false, or raises (mapped to false by the route's try/except), including the
missing-secret case where verification returns false outright — is rejected
with HTTP 400 before JSON parsing, `handle_webhook_event` is never invoked,
and the database is unchanged. -/
theorem c9_signature_rejection (db : DB) (vres : Except Unit Bool)
    (parsed : Except Unit WebhookEvent) (now : ℤ)
    (sdk : Except Unit Unit) (man : Except Unit Bool)
    (hv : vres = .error () ∨ vres = .ok false) :
    razorpay_webhook db vres parsed now = (db, ⟨400, false⟩) ∧
    verify_razorpay_webhook false sdk man = false := by
  refine ⟨?_, rfl⟩
  rcases hv with h | h <;> subst h <;> rfl

/-- Witness for C9: a failed manual comparison on a concrete database. -/
theorem c9_signature_rejection_witness :
    ((.ok false : Except Unit Bool) = .error () ∨ (.ok false : Except Unit Bool) = .ok false) ∧
    (razorpay_webhook exDb (.ok false) (.error ()) 0 = (exDb, ⟨400, false⟩) ∧
     verify_razorpay_webhook false (.error ()) (.ok true) = false) :=
  ⟨Or.inr rfl,
    c9_signature_rejection exDb (.ok false) (.error ()) 0 (.error ()) (.ok true) (Or.inr rfl)⟩

/-! ### Payment reconciliation lemmas -/


theorem record_payment_pair (db : DB) (phone : Option String) (payId : String)
    (amount : Option ℤ) (status : String) :
    (record_payment db phone payId amount status).2 = some status := by
  unfold record_payment
  split <;> rfl

theorem prevBlock_eq (db : DB) (payId : String) :
    ((!match Option.map (fun r => pyLower (r.status.getD "")) (findPayment db payId) with
        | none => false
        | some p => decide (p ≠ "")) ||
      !paidStates.contains
          ((Option.map (fun r => pyLower (r.status.getD "")) (findPayment db payId)).getD ""))
      = !prevPaid db payId := by
  unfold prevPaid
  rcases hf : findPayment db payId with _ | r
  · simp
  · simp only [Option.map_some, Option.getD_some]
    by_cases hp : pyLower (r.status.getD "") = ""
    · simp [hp, paidStates]
    · simp [hp]

theorem handle_step (db : DB) (ev : WebhookEvent) (now : ℤ) (ent : Entity) (c : String)
    (hrel : relevantEvents.contains ev.eventName = true)
    (hent : ev.entity = some ent)
    (hc : ent.contact = some c) (hc0 : c ≠ "") :
    (handle_webhook_event db ev now).2
      = .done (some (normalizePhoneStr c)) (prevStatusOf db ent.payId)
          (pyLower (ent.status.getD ""))
          (paidStates.contains (pyLower (ent.status.getD "")) && !prevPaid db ent.payId) ∧
    (handle_webhook_event db ev now).1
      = (if paidStates.contains (pyLower (ent.status.getD "")) && !prevPaid db ent.payId then
           set_subscription_active
             (record_payment db (some (normalizePhoneStr c)) ent.payId ent.amount
               (pyLower (ent.status.getD ""))).1
             (normalizePhoneStr c) 30 now
         else (record_payment db (some (normalizePhoneStr c)) ent.payId ent.amount
               (pyLower (ent.status.getD ""))).1) := by
  have hph := normalizePhoneStr_ne c hc0
  have hdp : decide (normalizePhoneStr c ≠ "") = true := decide_eq_true hph
  constructor
  · simp only [handle_webhook_event, hrel, Bool.not_true, Bool.false_eq_true, if_false,
      ite_false, hent, hc, hc0, record_payment_pair, Option.getD_some, pyLower_idem, hph,
      prevBlock_eq, hdp, Bool.and_true]
    split
    next h =>
      rw [show prevStatusOf db ent.payId
            = Option.map (fun r => pyLower (r.status.getD "")) (findPayment db ent.payId) from rfl,
          h]
    next h =>
      rw [Bool.not_eq_true] at h
      rw [show prevStatusOf db ent.payId
            = Option.map (fun r => pyLower (r.status.getD "")) (findPayment db ent.payId) from rfl,
        h]
  · simp only [handle_webhook_event, hrel, Bool.not_true, Bool.false_eq_true, if_false,
      ite_false, hent, hc, hc0, record_payment_pair, Option.getD_some, pyLower_idem, hph,
      prevBlock_eq, hdp, Bool.and_true]
    split
    next h => rfl
    next h => rfl


theorem prevPaid_after (db : DB) (ev : WebhookEvent) (now : ℤ) (ent : Entity) (c : String)
    (hrel : relevantEvents.contains ev.eventName = true)
    (hent : ev.entity = some ent)
    (hc : ent.contact = some c) (hc0 : c ≠ "") :
    prevPaid (handle_webhook_event db ev now).1 ent.payId
      = paidStates.contains (pyLower (ent.status.getD "")) := by
  rw [(handle_step db ev now ent c hrel hent hc hc0).2]
  have key : prevPaid (record_payment db (some (normalizePhoneStr c)) ent.payId ent.amount
      (pyLower (ent.status.getD ""))).1 ent.payId
      = paidStates.contains (pyLower (ent.status.getD "")) := by
    unfold prevPaid
    rw [findPayment_record_self]
    simp only [Option.getD_some]
    rw [pyLower_idem]
  split
  · exact key
  · exact key

theorem isPaid_of_entity (ev : WebhookEvent) (ent : Entity) (hent : ev.entity = some ent) :
    isPaidDelivery ev = paidStates.contains (pyLower (ent.status.getD "")) := by
  unfold isPaidDelivery
  rw [hent]

theorem handle_subActive (db : DB) (ev : WebhookEvent) (now : ℤ) (ent : Entity) (c : String)
    (hrel : relevantEvents.contains ev.eventName = true)
    (hent : ev.entity = some ent)
    (hc : ent.contact = some c) (hc0 : c ≠ "")
    (hu : (getUser db (normalizePhoneStr c)).isSome = true) :
    userSubActive (handle_webhook_event db ev now).1 (normalizePhoneStr c)
      = (userSubActive db (normalizePhoneStr c)
         || (paidStates.contains (pyLower (ent.status.getD "")) && !prevPaid db ent.payId)) ∧
    (getUser (handle_webhook_event db ev now).1 (normalizePhoneStr c)).isSome = true := by
  rw [(handle_step db ev now ent c hrel hent hc hc0).2]
  rcases hgu : getUser db (normalizePhoneStr c) with _ | u
  · rw [hgu] at hu; simp at hu
  · have hgu1 : getUser (record_payment db (some (normalizePhoneStr c)) ent.payId ent.amount
        (pyLower (ent.status.getD ""))).1 (normalizePhoneStr c) = some u := by
      show lookupUser (record_payment db (some (normalizePhoneStr c)) ent.payId ent.amount
        (pyLower (ent.status.getD ""))).1.users (normalizePhoneStr c) = some u
      rw [record_payment_users]
      exact hgu
    split
    next hcond =>
      have hact : getUser (set_subscription_active
          (record_payment db (some (normalizePhoneStr c)) ent.payId ent.amount
            (pyLower (ent.status.getD ""))).1 (normalizePhoneStr c) 30 now) (normalizePhoneStr c)
          = some ⟨max u.credits 0, true, some (now + 30)⟩ := by
        show lookupUser (activateRows _ (normalizePhoneStr c) (now + 30)) (normalizePhoneStr c)
          = _
        rw [lookupUser_activateRows_self]
        rw [show lookupUser (record_payment db (some (normalizePhoneStr c)) ent.payId ent.amount
          (pyLower (ent.status.getD ""))).1.users (normalizePhoneStr c) = some u from hgu1]
        rfl
      constructor
      · unfold userSubActive
        rw [hact, hgu, hcond]
        simp
      · rw [hact]
        rfl
    next hcond =>
      constructor
      · unfold userSubActive
        rw [hgu1, hgu]
        have : (paidStates.contains (pyLower (ent.status.getD "")) && !prevPaid db ent.payId)
            = false := by
          rw [Bool.not_eq_true] at hcond
          exact hcond
        rw [this]
        simp
      · rw [hgu1]
        rfl

theorem goodEv_spec (txid c : String) (ev : WebhookEvent) (h : goodEv txid c ev = true) :
    relevantEvents.contains ev.eventName = true ∧
    ∃ ent, ev.entity = some ent ∧ ent.payId = txid ∧ ent.contact = some c := by
  unfold goodEv at h
  rcases he : ev.entity with _ | ent
  · rw [he] at h; simp at h
  · rw [he] at h
    simp only [Bool.and_eq_true, beq_iff_eq] at h
    exact ⟨h.1, ent, rfl, h.2.1, h.2.2⟩

theorem anyBool_perm {α : Type} {l1 l2 : List α} (h : l1.Perm l2) (f : α → Bool) :
    l1.any f = l2.any f := by
  induction h with
  | nil => rfl
  | cons a _ ih => simp [List.any_cons, ih]
  | swap a b l => simp [List.any_cons, Bool.or_left_comm]
  | trans _ _ ih1 ih2 => rw [ih1, ih2]

theorem runEvents_subActive (txid c : String) (hc0 : c ≠ "")
    (evs : List (WebhookEvent × ℤ)) :
    ∀ db : DB, (∀ p ∈ evs, goodEv txid c p.1 = true) →
    (getUser db (normalizePhoneStr c)).isSome = true →
    (prevPaid db txid = false ∨ userSubActive db (normalizePhoneStr c) = true) →
    userSubActive (runEvents db evs) (normalizePhoneStr c)
      = (userSubActive db (normalizePhoneStr c)
         || evs.any (fun p => isPaidDelivery p.1)) := by
  induction evs with
  | nil =>
    intro db _ _ _
    simp [runEvents]
  | cons e t ih =>
    intro db hgood hu hdb
    obtain ⟨hrel, ent, hent, hpay, hcont⟩ :=
      goodEv_spec txid c e.1 (hgood e (List.mem_cons_self _ _))
    have hsub := handle_subActive db e.1 e.2 ent c hrel hent hcont hc0 hu
    have hprev := prevPaid_after db e.1 e.2 ent c hrel hent hcont hc0
    have hrun : runEvents db (e :: t) = runEvents (handle_webhook_event db e.1 e.2).1 t := rfl
    have hdb' : prevPaid (handle_webhook_event db e.1 e.2).1 txid = false ∨
        userSubActive (handle_webhook_event db e.1 e.2).1 (normalizePhoneStr c) = true := by
      rcases hdb with hQ | hA
      · by_cases hP : paidStates.contains (pyLower (ent.status.getD "")) = true
        · right
          rw [hsub.1, hpay, hQ, hP]
          simp
        · left
          rw [hpay] at hprev
          rw [hprev, Bool.not_eq_true] at *
          exact hP
      · right
        rw [hsub.1, hA]
        simp
    have hrest := ih (handle_webhook_event db e.1 e.2).1
      (fun p hp => hgood p (List.mem_cons_of_mem _ hp)) hsub.2 hdb'
    rw [hrun, hrest, hsub.1, List.any_cons, isPaid_of_entity e.1 ent hent, hpay]
    rcases hdb with hQ | hA
    · rw [hQ]
      simp [Bool.or_assoc]
    · rw [hA]
      simp

theorem handle_redelivery (db : DB) (pev : WebhookEvent) (now1 now2 : ℤ)
    (pent : Entity) (c : String)
    (hprel : relevantEvents.contains pev.eventName = true)
    (hpent : pev.entity = some pent)
    (hpc : pent.contact = some c) (hc0 : c ≠ "")
    (hppaid : paidStates.contains (pyLower (pent.status.getD "")) = true) :
    activatedOf (handle_webhook_event (handle_webhook_event db pev now1).1 pev now2).2 = false ∧
    (handle_webhook_event (handle_webhook_event db pev now1).1 pev now2).1.users
      = (handle_webhook_event db pev now1).1.users := by
  have hprev1 : prevPaid (handle_webhook_event db pev now1).1 pent.payId = true := by
    rw [prevPaid_after db pev now1 pent c hprel hpent hpc hc0]
    exact hppaid
  have hstep2 := handle_step (handle_webhook_event db pev now1).1 pev now2 pent c
    hprel hpent hpc hc0
  have hcond : (paidStates.contains (pyLower (pent.status.getD ""))
      && !prevPaid (handle_webhook_event db pev now1).1 pent.payId) = false := by
    rw [hprev1]
    simp
  constructor
  · rw [hstep2.1, hcond]
    rfl
  · rw [hstep2.2, hcond]
    simp only [Bool.false_eq_true, if_false, ite_false]
    exact record_payment_users _ _ _ _ _

/-! ## Claim C2 -/

/-- C2: (i) a well-formed delivery (relevant event, entity present, truthy
contact) reports `activated` exactly when its lowercased status is in the
paid set {captured, paid, authorized} and the previously recorded status is
not; (ii) redelivering an already-paid status reports `activated = false`
and leaves every user row — in particular `subscription_expiry` — exactly as
after the first delivery; (iii) for deliveries of one transaction id from a
fresh payment record, the final `subscription_active` equals "some delivery
was paid", so the activation outcome is invariant under permutation of the
delivery order. -/
theorem c2_payment_activation (db : DB) (ev pev : WebhookEvent) (ent pent : Entity)
    (now1 now2 : ℤ) (c txid : String) (evs1 evs2 : List (WebhookEvent × ℤ))
    (hc0 : c ≠ "")
    (hrel : relevantEvents.contains ev.eventName = true)
    (hent : ev.entity = some ent)
    (hc : ent.contact = some c)
    (hprel : relevantEvents.contains pev.eventName = true)
    (hpent : pev.entity = some pent)
    (hpc : pent.contact = some c)
    (hppaid : paidStates.contains (pyLower (pent.status.getD "")) = true)
    (hgood1 : ∀ p ∈ evs1, goodEv txid c p.1 = true)
    (hperm : evs1.Perm evs2)
    (hu : (getUser db (normalizePhoneStr c)).isSome = true)
    (hfresh : prevPaid db txid = false) :
    activatedOf (handle_webhook_event db ev now1).2
      = (isPaidDelivery ev && !prevPaid db ent.payId) ∧
    (activatedOf (handle_webhook_event (handle_webhook_event db pev now1).1 pev now2).2 = false ∧
     (handle_webhook_event (handle_webhook_event db pev now1).1 pev now2).1.users
       = (handle_webhook_event db pev now1).1.users) ∧
    userSubActive (runEvents db evs1) (normalizePhoneStr c)
      = (userSubActive db (normalizePhoneStr c) || evs1.any (fun p => isPaidDelivery p.1)) ∧
    userSubActive (runEvents db evs1) (normalizePhoneStr c)
      = userSubActive (runEvents db evs2) (normalizePhoneStr c) := by
  refine ⟨?_, handle_redelivery db pev now1 now2 pent c hprel hpent hpc hc0 hppaid, ?_, ?_⟩
  · rw [(handle_step db ev now1 ent c hrel hent hc hc0).1, isPaid_of_entity ev ent hent]
    rfl
  · exact runEvents_subActive txid c hc0 evs1 db hgood1 hu (Or.inl hfresh)
  · have h2 := runEvents_subActive txid c hc0 evs2 db
      (fun p hp => hgood1 p (hperm.mem_iff.mpr hp)) hu (Or.inl hfresh)
    rw [runEvents_subActive txid c hc0 evs1 db hgood1 hu (Or.inl hfresh), h2,
      anyBool_perm hperm]

/-- Witness for C2: a captured payment for `pay_1`, its redelivery, and the
two orders of an authorized/captured pair against the 30-minute user. -/
theorem c2_payment_activation_witness :
    exContact ≠ "" ∧
    paidStates.contains (pyLower (entCaptured.status.getD "")) = true ∧
    prevPaid exDb "pay_1" = false ∧
    (getUser exDb (normalizePhoneStr exContact)).isSome = true ∧
    (activatedOf (handle_webhook_event exDb evCaptured 0).2
       = (isPaidDelivery evCaptured && !prevPaid exDb entCaptured.payId) ∧
     (activatedOf (handle_webhook_event (handle_webhook_event exDb evCaptured 0).1
          evCaptured 1).2 = false ∧
      (handle_webhook_event (handle_webhook_event exDb evCaptured 0).1 evCaptured 1).1.users
        = (handle_webhook_event exDb evCaptured 0).1.users) ∧
     userSubActive (runEvents exDb [(evAuthorized, 0), (evCaptured, 1)])
         (normalizePhoneStr exContact)
       = (userSubActive exDb (normalizePhoneStr exContact)
          || [(evAuthorized, 0), (evCaptured, 1)].any (fun p => isPaidDelivery p.1)) ∧
     userSubActive (runEvents exDb [(evAuthorized, 0), (evCaptured, 1)])
         (normalizePhoneStr exContact)
       = userSubActive (runEvents exDb [(evCaptured, 1), (evAuthorized, 0)])
           (normalizePhoneStr exContact)) :=
  ⟨by decide, by decide, by decide, by decide,
   c2_payment_activation exDb evCaptured evCaptured entCaptured entCaptured 0 1 exContact "pay_1"
     [(evAuthorized, 0), (evCaptured, 1)] [(evCaptured, 1), (evAuthorized, 0)]
     (by decide) (by decide) rfl rfl (by decide) rfl rfl (by decide) (by decide)
     (by decide) (by decide) (by decide)⟩

end MinA
